import Mathlib

/-!
Verification development for the `vphs` video-over-HTTP server (Go).

The range-request handler (`videoHandler` in `main.go`) and the two
address-resolution routines (`getLocalIPForGateway` in `main.go`, `getLocalIP`
in the second source file) are shallowly embedded below.  Go strings are
modelled as `List Char`, Go `int64` as `Int` (with the `2^63` bounds made
explicit where `strconv.ParseInt` enforces them), the served file as the list
of its bytes (`List Nat`), and IPv4 addresses as 32-bit natural numbers.
-/

namespace Vphs

/-! ### Model of the Go string operations used by `videoHandler` -/

/-- Model of `strings.Split(s, "-")` for a one-character separator: splits at
every occurrence of `sep`; `Split("", sep) = [""]`. -/
def splitOn (sep : Char) : List Char → List (List Char)
  | [] => [[]]
  | c :: cs =>
    match splitOn sep cs with
    | [] => if c = sep then [[], []] else [[c]]
    | p :: ps => if c = sep then [] :: p :: ps else (c :: p) :: ps

/-- Model of `strings.TrimPrefix(s, pre)`: drop `pre` when it is a prefix of
`s`, otherwise return `s` unchanged. -/
def trimPfx (pre s : List Char) : List Char :=
  if pre.isPrefixOf s then s.drop pre.length else s

/-- Decimal digit value of a character, `none` for a non-digit.  This is the
per-character step of `strconv.ParseInt` at base 10. -/
def digitVal (c : Char) : Option Nat :=
  if 48 ≤ c.toNat ∧ c.toNat ≤ 57 then some (c.toNat - 48) else none

/-- Accumulating base-10 digit scan, failing at the first non-digit. -/
def parseDigitsAux : List Char → Nat → Option Nat
  | [], acc => some acc
  | c :: cs, acc =>
    match digitVal c with
    | none => none
    | some d => parseDigitsAux cs (acc * 10 + d)

/-- Base-10 digit-string value; the empty string is a syntax error, as in
`strconv.ParseUint`. -/
def parseDigits (s : List Char) : Option Nat :=
  if s.isEmpty then none else parseDigitsAux s 0

/-- Model of `strconv.ParseInt(s, 10, 64)`: an optional sign followed by a
non-empty run of decimal digits, with the 64-bit signed range enforced
(`n < 2^63` for non-negative results, `n ≤ 2^63` for negated ones). -/
def parseInt64 (s : List Char) : Option Int :=
  match s with
  | [] => none
  | c :: rest =>
    let digs := if c = '+' ∨ c = '-' then rest else c :: rest
    match parseDigits digs with
    | none => none
    | some n =>
      if c = '-' then (if n ≤ 2 ^ 63 then some (-(n : Int)) else none)
      else (if n < 2 ^ 63 then some ((n : Int)) else none)

/-- The characters of `"bytes="`, the byte-unit marker the handler trims. -/
def bytesMarker : List Char := ['b', 'y', 't', 'e', 's', '=']

/-! ### The range-parsing stage of `videoHandler` (main.go lines 144-166) -/

/-- Outcome of the inline range-parsing code of `videoHandler`. -/
inductive ParsedRange where
  | noRange
  | malformed
  | range (start e : Int)
  deriving DecidableEq

/-- The clamp at main.go lines 163-166: `if end > fileSize-1 { end = fileSize-1 }`. -/
def validateEnd (fileSize e : Int) : Int :=
  if e > fileSize - 1 then fileSize - 1 else e

/-- The range-parsing portion of `videoHandler` (main.go lines 144-166): an
empty header means no range; otherwise the header minus a leading `bytes=` is
split on every `-`, field 0 must `ParseInt`, field 1 (when present and
non-empty) must `ParseInt` and otherwise defaults to `fileSize - 1`, and the
end is clamped to `fileSize - 1`. -/
def parseRange (rangeHeader : List Char) (fileSize : Int) : ParsedRange :=
  if rangeHeader.isEmpty then .noRange
  else
    let rangeParts := splitOn '-' (trimPfx bytesMarker rangeHeader)
    match parseInt64 (rangeParts.headD []) with
    | none => .malformed
    | some start =>
      let p1 := rangeParts.getD 1 []
      if p1.isEmpty then .range start (validateEnd fileSize (fileSize - 1))
      else
        match parseInt64 p1 with
        | none => .malformed
        | some e => .range start (validateEnd fileSize e)

/-! ### The response-writing stage of `videoHandler` -/

/-- Observable response of one request to the `/video` route: committed status
code, the `Content-Range` triple (start, end, size) when set, the numeric
`Content-Length` when set, whether `Accept-Ranges: bytes` was set, the file
bytes written to the body, and the `http.Error` message if any. -/
structure Response where
  status : Nat
  contentRange : Option (Int × Int × Int)
  contentLength : Option Int
  acceptRanges : Bool
  body : List Nat
  errMsg : Option String
  deriving DecidableEq

/-- Model of `videoHandler` (main.go lines 126-188) on an already opened and
statted file, given as its byte content.  `seekFails` is the outcome of the
external call `file.Seek(start, io.SeekStart)`; all other I/O is pure here.
With a range, the body is what `io.CopyN(w, file, end-start+1)` writes after
the seek: the bytes of the file from offset `start`, at most `end-start+1` of
them (and none when that count is not positive).  `http.Error` deletes
`Content-Length`, records its message, and sets the reported status. -/
def videoHandler (file : List Nat) (rangeHeader : List Char) (seekFails : Bool) : Response :=
  let fileSize : Int := file.length
  match parseRange rangeHeader fileSize with
  | .noRange =>
      { status := 200, contentRange := none, contentLength := some fileSize,
        acceptRanges := true, body := file, errMsg := none }
  | .malformed =>
      { status := 400, contentRange := none, contentLength := none,
        acceptRanges := false, body := [], errMsg := some "Invalid Range request" }
  | .range s e =>
      if seekFails then
        { status := 500, contentRange := some (s, e, fileSize), contentLength := none,
          acceptRanges := true, body := [], errMsg := some "Failed to seek file" }
      else
        { status := 206, contentRange := some (s, e, fileSize),
          contentLength := some (e - s + 1), acceptRanges := true,
          body := (file.drop s.toNat).take (e - s + 1).toNat, errMsg := none }

/-! ### Decimal numerals, for quantifying over client-written range headers -/

/-- The standard decimal numeral of `n`, most significant digit first: what an
HTTP client writes for the start or end of a byte range. -/
def natToDecChars (n : Nat) : List Char :=
  if n = 0 then ['0'] else ((Nat.digits 10 n).map fun d => Char.ofNat (48 + d)).reverse

/-- The header value `bytes={start}-{end}` of a two-sided range request. -/
def mkRangeHeader (s e : Nat) : List Char :=
  bytesMarker ++ (natToDecChars s ++ '-' :: natToDecChars e)

/-! ### Model of the address-resolution routines

IPv4 addresses and masks are 32-bit natural numbers; the predicates below are
the `net.IP` classification methods as they evaluate on a 4-byte address. -/

/-- Go `ip.IsLoopback()` on an IPv4 address: first octet 127. -/
def isLoopback4 (v : Nat) : Bool := v >>> 24 == 127

/-- Go `ip.IsMulticast()` on an IPv4 address: top nibble `0xE` (224.0.0.0/4). -/
def isMulticast4 (v : Nat) : Bool := v >>> 28 == 14

/-- Go `ip.IsLinkLocalUnicast()` on an IPv4 address: 169.254.0.0/16. -/
def isLinkLocalUnicast4 (v : Nat) : Bool := v >>> 16 == 43518

/-- Go `ip.IsGlobalUnicast()` on an IPv4 address: not broadcast, unspecified,
loopback, multicast or link-local unicast. -/
def isGlobalUnicast4 (v : Nat) : Bool :=
  !(v == 4294967295 || v == 0 || isLoopback4 v || isMulticast4 v || isLinkLocalUnicast4 v)

/-- One element of an interface's (or the host's) address list, as the Go code
inspects it: whether the `*net.IPNet` type assertion succeeds, the result of
`IP.To4()` (`none` for an IPv6 address), the 32-bit network mask, and, for an
IPv6 address, whether `IP.IsLoopback()` holds (`::1`). -/
structure NetAddr where
  isIPNet : Bool
  ipv4 : Option Nat
  mask : Nat
  v6Loopback : Bool
  deriving DecidableEq

/-- Go `a.IP.IsLoopback()` on the possibly-IPv6 address of `a`: first octet
127 when `To4` succeeds, the `::1` test otherwise. -/
def addrIsLoopback (a : NetAddr) : Bool :=
  match a.ipv4 with
  | some v => isLoopback4 v
  | none => a.v6Loopback

/-- A network interface as `getLocalIPForGateway` inspects it: whether
`net.FlagUp` is set, and the result of `iface.Addrs()` (`none` when that call
fails, which the code logs and skips). -/
structure Iface where
  up : Bool
  addrs : Option (List NetAddr)
  deriving DecidableEq

/-- The inner loop of `getLocalIPForGateway` (main.go lines 103-119): skip
non-`IPNet` addresses, skip addresses whose `To4` is nil, skip non-global-
unicast and loopback addresses, and return the first remaining IPv4 address
whose masked subnet contains the gateway (`ipnet.Contains(gwIP)`). -/
def findAddrInIface (gw : Nat) : List NetAddr → Option Nat
  | [] => none
  | a :: rest =>
    if !a.isIPNet then findAddrInIface gw rest
    else
      match a.ipv4 with
      | none => findAddrInIface gw rest
      | some v =>
        if !isGlobalUnicast4 v || isLoopback4 v then findAddrInIface gw rest
        else if (gw &&& a.mask) == (v &&& a.mask) then some v
        else findAddrInIface gw rest

/-- `getLocalIPForGateway` (main.go lines 84-123): scan the interfaces in
order, skipping interfaces that are down and interfaces whose `Addrs()` call
fails, and return the first suitable IPv4 address; `none` models the
`no local IPv4 address found in the same subnet as gateway` error. -/
def getLocalIPForGateway (gw : Nat) : List Iface → Option Nat
  | [] => none
  | i :: rest =>
    if !i.up then getLocalIPForGateway gw rest
    else
      match i.addrs with
      | none => getLocalIPForGateway gw rest
      | some l =>
        match findAddrInIface gw l with
        | some v => some v
        | none => getLocalIPForGateway gw rest

/-- An address that the loop of `getLocalIPForGateway` would accept: a
`*net.IPNet` IPv4 address, global unicast, not loopback, whose subnet (per the
interface's mask) contains the gateway. -/
def suitable (gw : Nat) (a : NetAddr) : Bool :=
  a.isIPNet &&
    match a.ipv4 with
    | none => false
    | some v => isGlobalUnicast4 v && !isLoopback4 v && ((gw &&& a.mask) == (v &&& a.mask))

/-- `localIPString` (main.go lines 61-81): fail when gateway discovery failed,
otherwise resolve via `getLocalIPForGateway`.  `gwResult` is the outcome of
the external `gateway.DiscoverGateway()` call. -/
def localIPString (gwResult : Option Nat) (ifaces : List Iface) : Option Nat :=
  match gwResult with
  | none => none
  | some gw => getLocalIPForGateway gw ifaces

/-- Outcome of the address-resolution step of `main` (main.go lines 270-275):
on any `localIPString` error the process prints the error and exits with
status 1; otherwise it serves at the resolved address. -/
inductive StartupOutcome where
  | fatalExit
  | serving (ip : Nat)
  deriving DecidableEq

/-- The address-resolution step of `main` (main.go lines 270-275). -/
def mainStartup (gwResult : Option Nat) (ifaces : List Iface) : StartupOutcome :=
  match localIPString gwResult ifaces with
  | none => .fatalExit
  | some ip => .serving ip

/-- Result of the fallback resolver `getLocalIP`: either the string of an
IPv4 address, or the literal string `localhost`. -/
inductive LocalIP where
  | addr (v : Nat)
  | localhost
  deriving DecidableEq

/-- The loop of the fallback `getLocalIP` (second source file, lines 65-72):
return the first address that is a `*net.IPNet`, is not loopback, and whose
`To4()` is non-nil; fall through to `localhost` otherwise. -/
def getLocalIPScan : List NetAddr → LocalIP
  | [] => .localhost
  | a :: rest =>
    if a.isIPNet && !addrIsLoopback a then
      match a.ipv4 with
      | some v => LocalIP.addr v
      | none => getLocalIPScan rest
    else getLocalIPScan rest

/-- The fallback resolver `getLocalIP` (second source file, lines 59-74):
`localhost` when `net.InterfaceAddrs()` fails (`addrsResult = none`),
otherwise the scan of the returned address list. -/
def getLocalIP (addrsResult : Option (List NetAddr)) : LocalIP :=
  match addrsResult with
  | none => .localhost
  | some addrs => getLocalIPScan addrs

/-- An address the fallback scan accepts: `*net.IPNet`, not loopback, with a
non-nil `To4()`. -/
def qualifiesLocal (a : NetAddr) : Bool :=
  a.isIPNet && !addrIsLoopback a && a.ipv4.isSome

/-! ### Lemmas about the string model -/

theorem splitOn_ne_nil (sep : Char) (l : List Char) : splitOn sep l ≠ [] := by
  cases l with
  | nil => simp [splitOn]
  | cons c cs =>
    simp only [splitOn]
    split <;> split <;> simp

theorem splitOn_sepFree (sep : Char) (l : List Char) (h : ∀ c ∈ l, c ≠ sep) :
    splitOn sep l = [l] := by
  induction l with
  | nil => rfl
  | cons c cs ih =>
    have hc : c ≠ sep := h c (List.mem_cons_self c cs)
    have ih' := ih fun x hx => h x (List.mem_cons_of_mem c hx)
    simp only [splitOn, ih']
    rw [if_neg hc]

theorem splitOn_append (sep : Char) (A B : List Char) (hA : ∀ c ∈ A, c ≠ sep) :
    splitOn sep (A ++ sep :: B) = A :: splitOn sep B := by
  induction A with
  | nil =>
    simp only [List.nil_append, splitOn]
    cases h : splitOn sep B with
    | nil => exact absurd h (splitOn_ne_nil sep B)
    | cons p ps => simp
  | cons a A' ih =>
    have ha : a ≠ sep := hA a (List.mem_cons_self a A')
    have ih' := ih fun x hx => hA x (List.mem_cons_of_mem a hx)
    simp only [List.cons_append, splitOn, List.append_eq, ih']
    rw [if_neg ha]

theorem isPrefixOf_append_self (p r : List Char) : p.isPrefixOf (p ++ r) = true := by
  induction p with
  | nil => simp [List.isPrefixOf]
  | cons a as ih => simp [List.isPrefixOf, ih]

theorem trimPfx_append (p r : List Char) : trimPfx p (p ++ r) = r := by
  simp [trimPfx, isPrefixOf_append_self, List.drop_left]

/-! ### Lemmas about decimal numerals -/

theorem digitVal_digitChar (d : Nat) (hd : d < 10) :
    digitVal (Char.ofNat (48 + d)) = some d := by
  interval_cases d <;> decide

theorem natToDecChars_mem {n : Nat} {c : Char} (hc : c ∈ natToDecChars n) :
    ∃ d, d < 10 ∧ c = Char.ofNat (48 + d) := by
  by_cases h : n = 0
  · subst h
    simp [natToDecChars] at hc
    exact ⟨0, by norm_num, by rw [hc]⟩
  · simp only [natToDecChars, if_neg h, List.mem_reverse, List.mem_map] at hc
    obtain ⟨d, hd, rfl⟩ := hc
    exact ⟨d, Nat.digits_lt_base (by norm_num) hd, rfl⟩

theorem natToDecChars_ne_nil (n : Nat) : natToDecChars n ≠ [] := by
  by_cases h : n = 0
  · subst h; simp [natToDecChars]
  · simp [natToDecChars, h, Nat.digits_ne_nil_iff_ne_zero]

theorem natToDecChars_ne_hyphen {n : Nat} {c : Char} (hc : c ∈ natToDecChars n) :
    c ≠ '-' := by
  obtain ⟨d, hd, rfl⟩ := natToDecChars_mem hc
  interval_cases d <;> decide

theorem natToDecChars_ne_plus {n : Nat} {c : Char} (hc : c ∈ natToDecChars n) :
    c ≠ '+' := by
  obtain ⟨d, hd, rfl⟩ := natToDecChars_mem hc
  interval_cases d <;> decide

theorem parseDigitsAux_append (xs ys : List Char) (a : Nat) :
    parseDigitsAux (xs ++ ys) a =
      match parseDigitsAux xs a with
      | none => none
      | some b => parseDigitsAux ys b := by
  induction xs generalizing a with
  | nil => rfl
  | cons c cs ih =>
    simp only [List.cons_append, parseDigitsAux]
    cases digitVal c with
    | none => rfl
    | some d => exact ih _

theorem parseDigitsAux_decimal (L : List Nat) (hL : ∀ d ∈ L, d < 10) (a : Nat) :
    parseDigitsAux ((L.map fun d => Char.ofNat (48 + d)).reverse) a =
      some (a * 10 ^ L.length + Nat.ofDigits 10 L) := by
  induction L generalizing a with
  | nil => simp [parseDigitsAux]
  | cons d L' ih =>
    have hd : d < 10 := hL d (List.mem_cons_self d L')
    have hL' : ∀ x ∈ L', x < 10 := fun x hx => hL x (List.mem_cons_of_mem d hx)
    rw [List.map_cons, List.reverse_cons, parseDigitsAux_append, ih hL']
    simp only [parseDigitsAux, digitVal_digitChar d hd, Nat.ofDigits_cons,
      List.length_cons, Option.some.injEq]
    ring

theorem parseDigits_decimal (n : Nat) : parseDigits (natToDecChars n) = some n := by
  by_cases h : n = 0
  · subst h; decide
  · have h2 : (natToDecChars n).isEmpty = false := by
      cases hh : natToDecChars n with
      | nil => exact absurd hh (natToDecChars_ne_nil n)
      | cons x xs => rfl
    rw [parseDigits, h2]
    simp only [Bool.false_eq_true, if_false]
    rw [natToDecChars, if_neg h,
      parseDigitsAux_decimal _ (fun d hd => Nat.digits_lt_base (by norm_num) hd) 0]
    simp [Nat.ofDigits_digits]

theorem parseInt64_decimal (n : Nat) (hn : n < 2 ^ 63) :
    parseInt64 (natToDecChars n) = some (n : Int) := by
  cases hcc : natToDecChars n with
  | nil => exact absurd hcc (natToDecChars_ne_nil n)
  | cons c cs =>
    have hcm : c ∈ natToDecChars n := by rw [hcc]; exact List.mem_cons_self c cs
    have hplus : c ≠ '+' := natToDecChars_ne_plus hcm
    have hmin : c ≠ '-' := natToDecChars_ne_hyphen hcm
    have hor : ¬(c = '+' ∨ c = '-') := by tauto
    simp only [parseInt64, if_neg hor]
    rw [← hcc, parseDigits_decimal]
    simp only [if_neg hmin]
    rw [if_pos (by omega : n < 2 ^ 63)]

theorem natToDecChars_not_isEmpty (n : Nat) : (natToDecChars n).isEmpty = false := by
  cases hh : natToDecChars n with
  | nil => exact absurd hh (natToDecChars_ne_nil n)
  | cons x xs => rfl

/-! ### Behaviour of the range parser on well-formed two-sided headers -/

theorem parseRange_mkRangeHeader (s e : Nat) (L : Int)
    (hs : s < 2 ^ 63) (he : e < 2 ^ 63) (hce : (e : Int) ≤ L - 1) :
    parseRange (mkRangeHeader s e) L = .range s e := by
  have h1 : trimPfx bytesMarker (mkRangeHeader s e)
      = natToDecChars s ++ '-' :: natToDecChars e := trimPfx_append _ _
  have h2 : splitOn '-' (natToDecChars s ++ '-' :: natToDecChars e)
      = [natToDecChars s, natToDecChars e] := by
    rw [splitOn_append '-' _ _ (fun c hc => natToDecChars_ne_hyphen hc),
      splitOn_sepFree '-' _ (fun c hc => natToDecChars_ne_hyphen hc)]
  have hne : ¬((mkRangeHeader s e).isEmpty = true) := by
    rw [mkRangeHeader, bytesMarker]
    simp
  simp only [parseRange, if_neg hne, h1, h2, List.headD_cons, List.getD_cons_succ,
    List.getD_cons_zero, parseInt64_decimal s hs, natToDecChars_not_isEmpty,
    Bool.false_eq_true, if_false, parseInt64_decimal e he, validateEnd]
  rw [if_neg (by omega : ¬((e : Int) > L - 1))]

/-! ### Claim theorems -/

/-- Claim C1: for every file and every requested byte range with
`start ≤ end < length` (the length within `int64`, as `os.FileInfo.Size`
guarantees), a GET of the stream route with header `Range: bytes={start}-{end}`
and a successful seek yields status 206, header
`Content-Range: bytes {start}-{end}/{length}`, header `Content-Length` equal
to `end-start+1`, and a body exactly equal to bytes `[start, end]` of the
source file. -/
theorem claim1_valid_range_served (file : List Nat) (s e : Nat)
    (hse : s ≤ e) (hel : e < file.length) (hsz : file.length ≤ 2 ^ 63) :
    videoHandler file (mkRangeHeader s e) false =
      { status := 206, contentRange := some ((s : Int), (e : Int), (file.length : Int)),
        contentLength := some ((e : Int) - (s : Int) + 1), acceptRanges := true,
        body := (file.drop s).take (e - s + 1), errMsg := none } := by
  have hs : s < 2 ^ 63 := by omega
  have he : e < 2 ^ 63 := by omega
  have hce : (e : Int) ≤ (file.length : Int) - 1 := by omega
  have h3 : ((e : Int) - (s : Int) + 1).toNat = e - s + 1 := by omega
  have h4 : ((s : Int)).toNat = s := by omega
  simp [videoHandler, parseRange_mkRangeHeader s e ((file.length : Nat) : Int) hs he hce,
    h3, h4]

/-- Witness for C1: the file `[10, 20, 30, 40, 50]` with `Range: bytes=1-3`. -/
theorem claim1_valid_range_served_witness :
    ((1 : Nat) ≤ 3 ∧ 3 < [10, 20, 30, 40, 50].length ∧
      [10, 20, 30, 40, 50].length ≤ 2 ^ 63) ∧
    videoHandler [10, 20, 30, 40, 50] (mkRangeHeader 1 3) false =
      { status := 206, contentRange := some (1, 3, 5), contentLength := some 3,
        acceptRanges := true, body := [20, 30, 40], errMsg := none } :=
  ⟨⟨by norm_num, by norm_num, by norm_num⟩,
    (claim1_valid_range_served [10, 20, 30, 40, 50] 1 3 (by norm_num) (by norm_num)
      (by norm_num)).trans (by decide)⟩

/-- Claim C2: for every file, a GET of the stream route whose `Range` header
is absent or empty (Go's `Header.Get` returns `""` in both cases) yields
status 200, `Content-Length` equal to the full file length,
`Accept-Ranges: bytes`, and a body byte-identical to the entire source file. -/
theorem claim2_no_range_full_content (file : List Nat) (seekFails : Bool) :
    videoHandler file [] seekFails =
      { status := 200, contentRange := none, contentLength := some (file.length : Int),
        acceptRanges := true, body := file, errMsg := none } := rfl

/-- Claim C3: in range parsing against a resource of length `L`, when the
end field of the `-`-split header is absent or empty the validated end is
`L - 1`, and when the end field parses to a value exceeding `L - 1` the
validated end is clamped to `L - 1` (in both cases the start field must parse,
else the request is malformed rather than validated). -/
theorem claim3_end_default_and_clamp (hdr : List Char) (L : Int) (s : Int)
    (hne : hdr ≠ [])
    (hs : parseInt64 ((splitOn '-' (trimPfx bytesMarker hdr)).headD []) = some s) :
    ((splitOn '-' (trimPfx bytesMarker hdr)).getD 1 [] = [] →
        parseRange hdr L = .range s (L - 1)) ∧
    (∀ v : Int, parseInt64 ((splitOn '-' (trimPfx bytesMarker hdr)).getD 1 []) = some v →
        v > L - 1 → parseRange hdr L = .range s (L - 1)) := by
  have hne' : ¬(hdr.isEmpty = true) := by
    cases hdr with
    | nil => exact absurd rfl hne
    | cons c cs => simp
  constructor
  · intro h1
    simp only [parseRange, if_neg hne', hs, h1]
    simp [validateEnd]
  · intro v hv hgt
    have hp1 : ((splitOn '-' (trimPfx bytesMarker hdr)).getD 1 []).isEmpty = false := by
      cases hp : (splitOn '-' (trimPfx bytesMarker hdr)).getD 1 [] with
      | nil => rw [hp] at hv; exact absurd hv (by simp [parseInt64])
      | cons c cs => rfl
    simp only [parseRange, if_neg hne', hs, hp1, Bool.false_eq_true, if_false, hv]
    rw [validateEnd, if_pos hgt]

/-- Witness for C3: `bytes=0-` and `bytes=500-2000` against `L = 1000` both
validate to end `999`. -/
theorem claim3_end_default_and_clamp_witness :
    parseRange "bytes=0-".toList 1000 = .range 0 999 ∧
    parseRange "bytes=500-2000".toList 1000 = .range 500 999 :=
  ⟨((claim3_end_default_and_clamp "bytes=0-".toList 1000 0 (by decide) (by decide)).1
      (by decide)).trans (by decide),
    ((claim3_end_default_and_clamp "bytes=500-2000".toList 1000 500 (by decide)
      (by decide)).2 2000 (by decide) (by decide)).trans (by decide)⟩

/-- Claim C4: for every non-empty `Range` header whose start field fails
`strconv.ParseInt` (the `-` split makes the fields sign-free, so this is
exactly failure to parse as a non-negative 64-bit integer), or whose present
non-empty end field fails it, the request is rejected as a malformed range:
HTTP status 400, with no body bytes of the file written. -/
theorem claim4_malformed_rejected (hdr : List Char) (file : List Nat) (sf : Bool)
    (hne : hdr ≠ [])
    (hbad : parseInt64 ((splitOn '-' (trimPfx bytesMarker hdr)).headD []) = none ∨
      ((splitOn '-' (trimPfx bytesMarker hdr)).getD 1 [] ≠ [] ∧
        parseInt64 ((splitOn '-' (trimPfx bytesMarker hdr)).getD 1 []) = none)) :
    (videoHandler file hdr sf).status = 400 ∧ (videoHandler file hdr sf).body = [] := by
  have hne' : ¬(hdr.isEmpty = true) := by
    cases hdr with
    | nil => exact absurd rfl hne
    | cons c cs => simp
  have hpm : parseRange hdr (file.length : Int) = .malformed := by
    rcases hbad with hb | ⟨hp1, hb⟩
    · simp only [parseRange, if_neg hne', hb]
    · cases hstart : parseInt64 ((splitOn '-' (trimPfx bytesMarker hdr)).headD []) with
      | none => simp only [parseRange, if_neg hne', hstart]
      | some s =>
        have hp1e : ((splitOn '-' (trimPfx bytesMarker hdr)).getD 1 []).isEmpty = false := by
          cases hp : (splitOn '-' (trimPfx bytesMarker hdr)).getD 1 [] with
          | nil => exact absurd hp hp1
          | cons c cs => rfl
        simp only [parseRange, if_neg hne', hstart, hp1e, Bool.false_eq_true, if_false, hb]
  simp only [videoHandler, hpm]
  exact ⟨trivial, trivial⟩

/-- Witness for C4: `Range: bytes=abc-100` on a 3-byte file yields 400 with
no file bytes. -/
theorem claim4_malformed_rejected_witness :
    (videoHandler [0, 1, 2] "bytes=abc-100".toList false).status = 400 ∧
    (videoHandler [0, 1, 2] "bytes=abc-100".toList false).body = [] :=
  claim4_malformed_rejected "bytes=abc-100".toList [0, 1, 2] false (by decide)
    (Or.inl (by decide))

/-- Counterexample to claim C5 as stated: on a 100-byte file the multi-range
header `bytes=0-10,20-30` is not served as the validated range 0-10; the
handler rejects it with status 400 and sets no `Content-Range` at all. -/
theorem claim5_counterexample :
    (videoHandler (List.replicate 100 7) "bytes=0-10,20-30".toList false).status = 400 ∧
    (videoHandler (List.replicate 100 7) "bytes=0-10,20-30".toList false).contentRange
      = none ∧
    (videoHandler (List.replicate 100 7) "bytes=0-10,20-30".toList false).status ≠ 206 := by
  decide

/-- Claim C5 amended: a multi-range header is indeed not parsed as multiple
ranges — the code splits on every `-` and honors only fields 0 and 1 — but for
`bytes=0-10,20-30` field 1 is `10,20`, which fails integer parsing, so the
request is rejected with 400 (MalformedRange) rather than served as the range
0-10. -/
theorem claim5_multirange_rejected (file : List Nat) (sf : Bool) :
    videoHandler file "bytes=0-10,20-30".toList sf =
      { status := 400, contentRange := none, contentLength := none,
        acceptRanges := false, body := [], errMsg := some "Invalid Range request" } := by
  have hpm : parseRange "bytes=0-10,20-30".toList (file.length : Int) = .malformed := rfl
  simp only [videoHandler, hpm]

/-- Counterexample to claim C6 as stated: the non-empty header `0-5`, which
lacks the `bytes=` prefix, is nevertheless served as a validated byte range on
a 10-byte file: status 206 with `Content-Range: bytes 0-5/10`. -/
theorem claim6_counterexample :
    (videoHandler [0, 1, 2, 3, 4, 5, 6, 7, 8, 9] "0-5".toList false).status = 206 ∧
    (videoHandler [0, 1, 2, 3, 4, 5, 6, 7, 8, 9] "0-5".toList false).contentRange
      = some (0, 5, 10) ∧
    (videoHandler [0, 1, 2, 3, 4, 5, 6, 7, 8, 9] "0-5".toList false).body
      = [0, 1, 2, 3, 4, 5] := by decide

/-- Claim C6 amended: `strings.TrimPrefix` merely strips the `bytes=` marker
when present and passes any other header value through unchanged, so the
marker is not required: a non-empty header lacking it is parsed directly as
`start-end` and, when its fields parse and the end fits the file, is served as
a validated byte range (here `Range: 0-5` with a successful seek). -/
theorem claim6_no_marker_still_served (file : List Nat)
    (h6 : (6 : Int) ≤ (file.length : Int)) :
    videoHandler file "0-5".toList false =
      { status := 206, contentRange := some (0, 5, (file.length : Int)),
        contentLength := some 6, acceptRanges := true,
        body := file.take 6, errMsg := none } := by
  have hpr : parseRange "0-5".toList (file.length : Int)
      = .range 0 (validateEnd (file.length : Int) 5) := rfl
  have hv : validateEnd (file.length : Int) 5 = 5 := by
    rw [validateEnd, if_neg (by omega)]
  rw [hv] at hpr
  have h1 : ((5 : Int) - 0 + 1).toNat = 6 := by omega
  simp only [videoHandler, hpr, Bool.false_eq_true, if_false, h1, Int.toNat_zero,
    List.drop_zero]
  norm_num

/-- Witness for C6 amended: the 10-byte file `[0, …, 9]`. -/
theorem claim6_no_marker_still_served_witness :
    ((6 : Int) ≤ (([0, 1, 2, 3, 4, 5, 6, 7, 8, 9] : List Nat).length : Int)) ∧
    videoHandler [0, 1, 2, 3, 4, 5, 6, 7, 8, 9] "0-5".toList false =
      { status := 206, contentRange := some (0, 5, 10), contentLength := some 6,
        acceptRanges := true, body := [0, 1, 2, 3, 4, 5], errMsg := none } :=
  ⟨by norm_num,
    (claim6_no_marker_still_served [0, 1, 2, 3, 4, 5, 6, 7, 8, 9]
      (by norm_num)).trans (by decide)⟩

/-- Claim C7: when the external seek to `start` fails after the range headers
have been prepared, the handler reports the failure via `http.Error` with
status 500 and copies no file bytes; and whenever the seek succeeds, the
handler invokes `io.CopyN(w, file, end-start+1)` from offset `start`, so the
body offered to the output stream is exactly the file's bytes from offset
`start`, capped at `end-start+1` of them. -/
theorem claim7_seek_outcomes (file : List Nat) (hdr : List Char) (s e : Int)
    (hpr : parseRange hdr (file.length : Int) = .range s e) :
    ((videoHandler file hdr true).status = 500 ∧ (videoHandler file hdr true).body = []) ∧
    (videoHandler file hdr false).body = (file.drop s.toNat).take (e - s + 1).toNat := by
  simp [videoHandler, hpr]

/-- Witness for C7: the file `[1, 2, 3, 4, 5]` with `Range: bytes=1-3`. -/
theorem claim7_seek_outcomes_witness :
    ((videoHandler [1, 2, 3, 4, 5] "bytes=1-3".toList true).status = 500 ∧
      (videoHandler [1, 2, 3, 4, 5] "bytes=1-3".toList true).body = []) ∧
    (videoHandler [1, 2, 3, 4, 5] "bytes=1-3".toList false).body =
      (([1, 2, 3, 4, 5] : List Nat).drop ((1 : Int)).toNat).take
        (((3 : Int) - 1 + 1).toNat) :=
  claim7_seek_outcomes [1, 2, 3, 4, 5] "bytes=1-3".toList 1 3 (by decide)

/-- Counterexample to claim C10 as stated: the parseable range `bytes=200-50`
on a 100-byte file has `start = 200 ≥ length = 100`, yet the response headers
are `Content-Range: bytes 200-50/100` — not `bytes 200-99/100` — and
`Content-Length = -149` — not `length - start = -100`. -/
theorem claim10_counterexample :
    (videoHandler (List.replicate 100 7) "bytes=200-50".toList false).contentRange
        = some (200, 50, 100) ∧
    (videoHandler (List.replicate 100 7) "bytes=200-50".toList false).contentRange
        ≠ some (200, 99, 100) ∧
    (videoHandler (List.replicate 100 7) "bytes=200-50".toList false).contentLength
        = some (-149) ∧
    (videoHandler (List.replicate 100 7) "bytes=200-50".toList false).contentLength
        ≠ some (-100) := by
  decide

/-- Claim C10 amended: for every parseable range whose start exceeds the
validated (clamped) end — which includes every range with `start ≥ length` —
the handler, with a successful seek, still responds with status 206, header
`Content-Range: bytes {start}-{end'}/{length}` with `end'` the validated end,
header `Content-Length = end'-start+1` (zero or negative), and writes zero
body bytes, reporting no error status.  The claim's formulas
`bytes {start}-{length-1}/{length}` and `length - start` hold exactly when the
end field was absent, empty, or clamped, i.e. when `end' = length - 1`. -/
theorem claim10_degenerate_range (file : List Nat) (hdr : List Char) (s e : Int)
    (hpr : parseRange hdr (file.length : Int) = .range s e) (hlt : e < s) :
    videoHandler file hdr false =
      { status := 206, contentRange := some (s, e, (file.length : Int)),
        contentLength := some (e - s + 1), acceptRanges := true,
        body := [], errMsg := none } := by
  have hz : (e - s + 1).toNat = 0 := by omega
  simp [videoHandler, hpr, hz]

/-- Witness for C10 amended: `bytes=200-50` on a 100-byte file. -/
theorem claim10_degenerate_range_witness :
    (parseRange "bytes=200-50".toList (((List.replicate 100 7 : List Nat).length : Int))
        = .range 200 50) ∧
    videoHandler (List.replicate 100 7) "bytes=200-50".toList false =
      { status := 206,
        contentRange := some (200, 50, (((List.replicate 100 7 : List Nat).length : Int))),
        contentLength := some (-149), acceptRanges := true,
        body := [], errMsg := none } :=
  ⟨by decide,
    (claim10_degenerate_range (List.replicate 100 7) "bytes=200-50".toList 200 50
      (by decide) (by decide)).trans (by decide)⟩

/-! ### Lemmas about the address-resolution model -/

theorem findAddrInIface_some {gw : Nat} {l : List NetAddr} {v : Nat}
    (h : findAddrInIface gw l = some v) :
    ∃ a ∈ l, a.ipv4 = some v ∧ suitable gw a = true := by
  induction l with
  | nil => simp [findAddrInIface] at h
  | cons a rest ih =>
    have lift : (∃ b ∈ rest, b.ipv4 = some v ∧ suitable gw b = true) →
        ∃ b ∈ a :: rest, b.ipv4 = some v ∧ suitable gw b = true := by
      rintro ⟨b, hb, h1, h2⟩
      exact ⟨b, List.mem_cons_of_mem a hb, h1, h2⟩
    simp only [findAddrInIface] at h
    by_cases hip : a.isIPNet = true
    · rw [if_neg (by simp [hip])] at h
      cases hv4 : a.ipv4 with
      | none => rw [hv4] at h; exact lift (ih h)
      | some w =>
        rw [hv4] at h
        dsimp only at h
        by_cases hgu : (!isGlobalUnicast4 w || isLoopback4 w) = true
        · rw [if_pos hgu] at h; exact lift (ih h)
        · rw [if_neg hgu] at h
          simp only [Bool.or_eq_true, Bool.not_eq_true', not_or, Bool.not_eq_true] at hgu
          by_cases hct : ((gw &&& a.mask) == (w &&& a.mask)) = true
          · rw [if_pos hct] at h
            have hwv : w = v := Option.some.inj h
            subst hwv
            refine ⟨a, List.mem_cons_self a rest, hv4, ?_⟩
            simp [suitable, hip, hv4, hgu.1, hgu.2, hct]
          · rw [if_neg hct] at h; exact lift (ih h)
    · rw [if_pos (by simp [Bool.not_eq_true] at hip ⊢; exact hip)] at h
      exact lift (ih h)

theorem findAddrInIface_none {gw : Nat} {l : List NetAddr}
    (h : ∀ a ∈ l, suitable gw a = false) : findAddrInIface gw l = none := by
  induction l with
  | nil => rfl
  | cons a rest ih =>
    have ha := h a (List.mem_cons_self a rest)
    have hrest := ih fun b hb => h b (List.mem_cons_of_mem a hb)
    simp only [findAddrInIface]
    by_cases hip : a.isIPNet = true
    · rw [if_neg (by simp [hip])]
      cases hv4 : a.ipv4 with
      | none => exact hrest
      | some w =>
        dsimp only
        by_cases hgu : (!isGlobalUnicast4 w || isLoopback4 w) = true
        · rw [if_pos hgu]; exact hrest
        · rw [if_neg hgu]
          simp only [Bool.or_eq_true, Bool.not_eq_true', not_or, Bool.not_eq_true] at hgu
          have hct : ((gw &&& a.mask) == (w &&& a.mask)) = false := by
            simp only [suitable, hip, hv4, hgu.1, hgu.2, Bool.true_and, Bool.not_false,
              Bool.and_eq_false_imp] at ha
            simp [ha]
          rw [if_neg (by simp [hct])]
          exact hrest
    · rw [if_pos (by simp [Bool.not_eq_true] at hip ⊢; exact hip)]
      exact hrest

theorem getLocalIPForGateway_some {gw : Nat} {ifaces : List Iface} {v : Nat}
    (hv : getLocalIPForGateway gw ifaces = some v) :
    ∃ i ∈ ifaces, i.up = true ∧
      ∃ a ∈ i.addrs.getD [], a.ipv4 = some v ∧ suitable gw a = true := by
  induction ifaces with
  | nil => simp [getLocalIPForGateway] at hv
  | cons i rest ih =>
    have lift : (∃ j ∈ rest, j.up = true ∧
          ∃ a ∈ j.addrs.getD [], a.ipv4 = some v ∧ suitable gw a = true) →
        ∃ j ∈ i :: rest, j.up = true ∧
          ∃ a ∈ j.addrs.getD [], a.ipv4 = some v ∧ suitable gw a = true := by
      rintro ⟨j, hj, h1, h2⟩
      exact ⟨j, List.mem_cons_of_mem i hj, h1, h2⟩
    simp only [getLocalIPForGateway] at hv
    by_cases hup : i.up = true
    · rw [if_neg (by simp [hup])] at hv
      cases haddr : i.addrs with
      | none => rw [haddr] at hv; exact lift (ih hv)
      | some l =>
        rw [haddr] at hv
        dsimp only at hv
        cases hf : findAddrInIface gw l with
        | none => rw [hf] at hv; exact lift (ih hv)
        | some w =>
          rw [hf] at hv
          have hwv : w = v := Option.some.inj hv
          subst hwv
          obtain ⟨a, hal, h1, h2⟩ := findAddrInIface_some hf
          refine ⟨i, List.mem_cons_self i rest, hup, ?_⟩
          rw [haddr]
          exact ⟨a, hal, h1, h2⟩
    · rw [if_pos (by simp [Bool.not_eq_true] at hup ⊢; exact hup)] at hv
      exact lift (ih hv)

theorem getLocalIPForGateway_none {gw : Nat} {ifaces : List Iface}
    (h : ∀ i ∈ ifaces, i.up = true → ∀ a ∈ i.addrs.getD [], suitable gw a = false) :
    getLocalIPForGateway gw ifaces = none := by
  induction ifaces with
  | nil => rfl
  | cons i rest ih =>
    have hrest := ih fun j hj => h j (List.mem_cons_of_mem i hj)
    simp only [getLocalIPForGateway]
    by_cases hup : i.up = true
    · rw [if_neg (by simp [hup])]
      cases haddr : i.addrs with
      | none => exact hrest
      | some l =>
        have hall : ∀ a ∈ l, suitable gw a = false := by
          intro a hal
          have := h i (List.mem_cons_self i rest) hup
          rw [haddr] at this
          exact this a hal
        dsimp only
        rw [findAddrInIface_none hall]
        exact hrest
    · rw [if_pos (by simp [Bool.not_eq_true] at hup ⊢; exact hup)]
      exact hrest

theorem getLocalIPScan_find (l : List NetAddr) :
    getLocalIPScan l = match l.find? qualifiesLocal with
      | some a => LocalIP.addr (a.ipv4.getD 0)
      | none => LocalIP.localhost := by
  induction l with
  | nil => rfl
  | cons a rest ih =>
    simp only [getLocalIPScan, List.find?]
    by_cases hq : qualifiesLocal a = true
    · have hq' : (a.isIPNet = true ∧ addrIsLoopback a = false) ∧ a.ipv4.isSome = true := by
        simpa [qualifiesLocal] using hq
      have h1 : (a.isIPNet && !addrIsLoopback a) = true := by
        simp [hq'.1.1, hq'.1.2]
      rw [hq, if_pos h1]
      cases hv : a.ipv4 with
      | none => have h2 := hq'.2; rw [hv] at h2; simp at h2
      | some w => simp [hv]
    · have hqf : qualifiesLocal a = false := by simpa using hq
      rw [hqf]
      by_cases h1 : (a.isIPNet && !addrIsLoopback a) = true
      · have hnone : a.ipv4 = none := by
          cases hv : a.ipv4 with
          | none => rfl
          | some w => rw [qualifiesLocal, h1, hv] at hqf; simp at hqf
        rw [if_pos h1, hnone]
        exact ih
      · rw [if_neg h1]
        exact ih

/-- Claim C8: the preferred resolver `getLocalIPForGateway` returns, when it
succeeds, the IPv4 address of some administratively-up interface that is
`*net.IPNet`, global unicast, not loopback, and whose subnet (per the
interface's mask) contains the discovered gateway address (`suitable`); and
when no up interface carries such an address it returns the no-route error
(`none`) rather than any address, which `main` treats as fatal at startup
(`os.Exit(1)`, modelled by `StartupOutcome.fatalExit`). -/
theorem claim8_gateway_resolution (gw : Nat) (ifaces : List Iface) :
    (∀ v, getLocalIPForGateway gw ifaces = some v →
      ∃ i ∈ ifaces, i.up = true ∧
        ∃ a ∈ i.addrs.getD [], a.ipv4 = some v ∧ suitable gw a = true) ∧
    ((∀ i ∈ ifaces, i.up = true → ∀ a ∈ i.addrs.getD [], suitable gw a = false) →
      getLocalIPForGateway gw ifaces = none ∧
        mainStartup (some gw) ifaces = .fatalExit) := by
  refine ⟨fun v hv => getLocalIPForGateway_some hv, fun h => ?_⟩
  have hn := getLocalIPForGateway_none h
  exact ⟨hn, by simp [mainStartup, localIPString, hn]⟩

/-- Witness for C8: gateway `192.168.1.1`; the interface carrying
`192.168.1.5/24` is selected, while a host whose only interface carries
`10.0.0.1/8` gets the fatal no-route outcome. -/
theorem claim8_gateway_resolution_witness :
    (∃ i ∈ ([⟨true, some [⟨true, some 3232235781, 4294967040, false⟩]⟩] : List Iface),
      i.up = true ∧
        ∃ a ∈ i.addrs.getD [], a.ipv4 = some 3232235781 ∧ suitable 3232235777 a = true) ∧
    (getLocalIPForGateway 3232235777
        [⟨true, some [⟨true, some 167772161, 4278190080, false⟩]⟩] = none ∧
      mainStartup (some 3232235777)
        [⟨true, some [⟨true, some 167772161, 4278190080, false⟩]⟩] = .fatalExit) :=
  ⟨(claim8_gateway_resolution 3232235777
        [⟨true, some [⟨true, some 3232235781, 4294967040, false⟩]⟩]).1
      3232235781 (by decide),
    (claim8_gateway_resolution 3232235777
        [⟨true, some [⟨true, some 167772161, 4278190080, false⟩]⟩]).2 (by decide)⟩

/-- Claim C9: the fallback resolver `getLocalIP` returns the first interface
address that is a `*net.IPNet`, non-loopback IPv4 address (`find?` order), and
returns the literal `localhost` when no such address exists — in particular on
a host with only a loopback interface — or when `net.InterfaceAddrs()` fails. -/
theorem claim9_fallback_first_nonloopback (l : List NetAddr) :
    (getLocalIP (some l) = match l.find? qualifiesLocal with
        | some a => LocalIP.addr (a.ipv4.getD 0)
        | none => LocalIP.localhost) ∧
    ((∀ a ∈ l, qualifiesLocal a = false) → getLocalIP (some l) = LocalIP.localhost) ∧
    getLocalIP none = LocalIP.localhost := by
  refine ⟨getLocalIPScan_find l, fun h => ?_, rfl⟩
  have hf : l.find? qualifiesLocal = none := by
    rw [List.find?_eq_none]
    intro a ha
    simp [h a ha]
  rw [getLocalIP, getLocalIPScan_find l, hf]

/-- Witness for C9: a host whose only interface address is the loopback
`127.0.0.1/8` resolves to `localhost`. -/
theorem claim9_fallback_first_nonloopback_witness :
    getLocalIP (some [⟨true, some 2130706433, 4278190080, false⟩]) = LocalIP.localhost :=
  (claim9_fallback_first_nonloopback
    [⟨true, some 2130706433, 4278190080, false⟩]).2.1 (by decide)

end Vphs
